import Mathlib

/-!
Shallow embedding of the Vryzen economy-bot core (gambling settlement, banking,
companies, market orders, PvP challenges, jackpot draw) and proofs about it.

Conventions of the embedding:
* wallet and bank balances are rationals (JS numbers; all constants appearing in
  the settlement arithmetic are dyadic, so rational arithmetic models it exactly);
* amounts parsed with parseInt are integers;
* JS objects used as string-keyed maps are association lists with first-key lookup;
* calls to the random source are made explicit parameters (a coin result, a die
  face, a shuffled deck given as a permutation of the fresh deck, a drawn ticket);
* database records are passed and returned explicitly; a handler that replies with
  an error and performs no mutation is modelled as returning none.
-/

namespace Vryzen

/-! ## Configuration constants (src/config.js) -/

def minBet : ℤ := 10

def maxBet : ℤ := 1000000

def xpPerBet : ℕ := 10

def xpPerWin : ℕ := 25

def xpPerLoss : ℕ := 5

def maxChallengesPerHour : ℕ := 5

def challengeTimeout : ℤ := 60

def baseBankInterestRate : ℚ := 1 / 100

def companyWithdrawalFee : ℚ := 1 / 10

/-! ## JS object-as-map helpers

`db.js` stores maps as plain JS objects.  We model them as association lists:
`objGet` is property lookup, `objSet` is property assignment (overwrites the
first existing binding or appends), `objDel` is the delete operator. -/

def objGet {α : Type} (m : List (String × α)) (k : String) : Option α :=
  match m with
  | [] => none
  | (k', v) :: rest => if k' = k then some v else objGet rest k

def objSet {α : Type} (m : List (String × α)) (k : String) (v : α) :
    List (String × α) :=
  match m with
  | [] => [(k, v)]
  | (k', v') :: rest => if k' = k then (k, v) :: rest else (k', v') :: objSet rest k v

def objDel {α : Type} (m : List (String × α)) (k : String) : List (String × α) :=
  match m with
  | [] => []
  | (k', v') :: rest => if k' = k then rest else (k', v') :: objDel rest k

/-- Sum of the values of a string-keyed map. -/
def sumVals (m : List (String × ℤ)) : ℤ :=
  (m.map (fun p => p.2)).sum

/-! ## User records (src/database/db.js, getUser / updateUser) -/

structure User where
  balance : ℚ
  bankBalance : ℚ
  bankCapacity : ℚ
  xp : ℕ
  level : ℕ
  prestige : ℕ
  gamesPlayed : ℕ
  gamesWon : ℕ
  investedCompanies : List (String × ℤ)
  shares : List (String × ℤ)
  challengesMade : ℕ
  lastChallengeTime : Option ℤ
  lastOpponent : Option String
  deriving Repr, DecidableEq

/-- The record `getUser` creates on first reference (db.js lines 75-95). -/
def defaultUser : User where
  balance := 1000
  bankBalance := 0
  bankCapacity := 10000
  xp := 0
  level := 1
  prestige := 0
  gamesPlayed := 0
  gamesWon := 0
  investedCompanies := []
  shares := []
  challengesMade := 0
  lastChallengeTime := none
  lastOpponent := none

/-- User-table lookup with the create-on-read semantics of `getUser`. -/
def getUserS (tbl : List (String × User)) (id : String) : User :=
  (objGet tbl id).getD defaultUser

/-- `updateUser`: merge into (or create) the stored record. -/
def updateUserS (tbl : List (String × User)) (id : String) (u : User) :
    List (String × User) :=
  objSet tbl id u

/-! ## XP (src/commands/leaderboard.js, calculateLevel / addXP) -/

/-- `calculateLevel(xp) = Math.floor(Math.sqrt(xp / 100) + 1)`; for natural xp
this equals `Nat.sqrt (xp / 100) + 1`. -/
def calculateLevel (xp : ℕ) : ℕ :=
  Nat.sqrt (xp / 100) + 1

/-- `addXP`: add XP, recompute the level, keep the old level unless it grew. -/
def addXP (u : User) (amount : ℕ) : User :=
  let newXP := u.xp + amount
  let newLevel := calculateLevel newXP
  if u.level < newLevel then { u with xp := newXP, level := newLevel }
  else { u with xp := newXP }

/-! ## Gambling settlement (src/commands/gambling.js, updateStats) -/

/-- `updateStats(userId, betAmount, winAmount, isWin)`: the handler reads the
user once, applies outcome XP then per-bet XP through `addXP`, and finally
merges a single update containing the combined balance change and the game
counters computed from the initial snapshot. -/
def updateStats (u : User) (betAmount winAmount : ℚ) (isWin : Bool) : User :=
  let u1 := if isWin then addXP u xpPerWin else addXP u xpPerLoss
  let u2 := addXP u1 xpPerBet
  { u2 with
    balance := u.balance - betAmount + winAmount
    gamesPlayed := u.gamesPlayed + 1
    gamesWon := if isWin then u.gamesWon + 1 else u2.gamesWon }

/-- Coin toss payout (handleCoinToss): 2x the bet on a win. -/
def coinTossWinAmount (betAmount : ℚ) (isWin : Bool) : ℚ :=
  if isWin then betAmount * 2 else 0

/-- Dice payout (handleDice): 5x the bet on a correct guess. -/
def diceWinAmount (betAmount : ℚ) (isWin : Bool) : ℚ :=
  if isWin then betAmount * 5 else 0

/-- High-stakes payout (handleHighStakes): 10x the bet on a win. -/
def highStakesWinAmount (betAmount : ℚ) (isWin : Bool) : ℚ :=
  if isWin then betAmount * 10 else 0

/-- Slot symbols (src/utils/games.js, playSlots). -/
inductive SlotSymbol
  | cherry
  | orange
  | lemon
  | seven
  | money
  | star
  deriving Repr, DecidableEq

/-- Slots multiplier table (playSlots switch). -/
def slotMultiplier : SlotSymbol → ℚ
  | .cherry => 3
  | .orange => 5
  | .lemon => 7
  | .seven => 10
  | .money => 15
  | .star => 20

/-- Slots payout (handleSlots): bet times the middle-row symbol multiplier. -/
def slotsWinAmount (betAmount : ℚ) (win : Bool) (sym : SlotSymbol) : ℚ :=
  if win then betAmount * slotMultiplier sym else 0

/-- Wheel multiplier buckets (src/utils/games.js, spinWheel options). -/
def wheelMultipliers : List ℚ :=
  [0, 1 / 2, 1, 3 / 2, 2, 3, 5, 10]

/-- Wheel payout (handleWheelSpin): `winAmount = betAmount * multiplier`. -/
def wheelWinAmount (betAmount multiplier : ℚ) : ℚ :=
  betAmount * multiplier

/-- Blackjack settlement amount (handleBlackjackStand): natural blackjack pays
2.5x, dealer bust or winning hand pays 2x, a tie refunds the stake, everything
else pays nothing. -/
def blackjackWinAmount (betAmount : ℚ) (natural : Bool) (playerHandLen : ℕ)
    (playerValue dealerValue : ℕ) : ℚ :=
  if natural ∧ playerValue = 21 ∧ playerHandLen = 2 then betAmount * (5 / 2)
  else if 21 < playerValue then 0
  else if 21 < dealerValue then betAmount * 2
  else if dealerValue < playerValue then betAmount * 2
  else if playerValue < dealerValue then 0
  else betAmount

/-! ## Companies (src/database/db.js and src/commands/company.js) -/

structure Company where
  name : String
  owner : String
  sector : String
  value : ℤ
  investors : List (String × ℤ)
  createdAt : ℤ
  totalShares : ℤ
  shareDistribution : List (String × ℤ)
  deriving Repr, DecidableEq

/-- `createCompany(name, owner, initialInvestment)` (db.js lines 174-194); the
randomly drawn sector and the creation time are explicit parameters. -/
def createCompany (name owner sector : String) (initialInvestment now : ℤ) :
    Company where
  name := name
  owner := owner
  sector := sector
  value := initialInvestment
  investors := [(owner, initialInvestment)]
  createdAt := now
  totalShares := 100
  shareDistribution := [(owner, 100)]

/-- The share issuance of handleCompanyInvest:
`Math.floor((amount / newCompanyValue) * company.totalShares)`. -/
def sharesToGive (c : Company) (amount : ℤ) : ℤ :=
  Int.floor ((amount : ℚ) / ((c.value + amount : ℤ) : ℚ) * (c.totalShares : ℚ))

/-- `handleCompanyInvest` (company.js lines 152-241), after company lookup:
validates the amount, then updates the company (investors, value, share
distribution) and the investing user (balance, invested map, share map). -/
def handleCompanyInvest (c : Company) (u : User) (sender : String)
    (amount : ℤ) : Option (Company × User) :=
  if amount ≤ 0 then none
  else if (u.balance : ℚ) < (amount : ℚ) then none
  else if amount < 1000 then none
  else
    let currentInvestment := (objGet c.investors sender).getD 0
    let newInvestment := currentInvestment + amount
    let investors := objSet c.investors sender newInvestment
    let newCompanyValue := c.value + amount
    let given := sharesToGive c amount
    let shareDistribution :=
      objSet c.shareDistribution sender
        ((objGet c.shareDistribution sender).getD 0 + given)
    let c' := { c with
      value := newCompanyValue
      investors := investors
      shareDistribution := shareDistribution }
    let investedCompanies := objSet u.investedCompanies c.name newInvestment
    let shares :=
      objSet u.shares c.name ((objGet u.shares c.name).getD 0 + given)
    let u' := { u with
      balance := u.balance - (amount : ℚ)
      investedCompanies := investedCompanies
      shares := shares }
    some (c', u')

/-! ## Banking (src/commands/banking.js) -/

/-- `handleDeposit` after resolving the raw token ("all" resolves to the wallet
balance before this function): validates the amount, truncates it to the
remaining bank capacity, refuses a zero effective deposit, and applies one
combined wallet/bank update. -/
def handleDeposit (u : User) (amount : ℚ) : Option User :=
  if amount ≤ 0 then none
  else if u.balance < amount then none
  else
    let remainingCapacity := u.bankCapacity - u.bankBalance
    let amount' := if remainingCapacity < amount then remainingCapacity else amount
    if amount' = 0 then none
    else
      some { u with
        balance := u.balance - amount'
        bankBalance := u.bankBalance + amount' }

/-- `handleWithdraw` after resolving the raw token ("all" resolves to the bank
balance): validates the amount against the bank balance and applies one
combined wallet/bank update. -/
def handleWithdraw (u : User) (amount : ℚ) : Option User :=
  if amount ≤ 0 then none
  else if u.bankBalance < amount then none
  else
    some { u with
      balance := u.balance + amount
      bankBalance := u.bankBalance - amount }

/-- The interest computation of `handleInterest`, assuming the calendar-day
rate-limit check passed (that check performs no mutation):
`floor(bankBalance * (baseRate + prestige * 0.001))`, credited into the bank
and clamped at the capacity. -/
def handleInterest (u : User) : Option User :=
  let interestRate := baseBankInterestRate + (u.prestige : ℚ) * (1 / 1000)
  let interestAmount : ℤ := Int.floor (u.bankBalance * interestRate)
  if interestAmount ≤ 0 then none
  else
    let newBankBalance := u.bankBalance + (interestAmount : ℚ)
    if u.bankCapacity < newBankBalance then
      let adjustedInterest := u.bankCapacity - u.bankBalance
      if adjustedInterest ≤ 0 then none
      else some { u with bankBalance := u.bankCapacity }
    else some { u with bankBalance := newBankBalance }

/-! ## Company store and rename (db.js getCompany/updateCompany,
company.js handleCompanyRename) -/

/-- The `db.companies` table: company name (primary key) to record. -/
def getCompanyS (s : List (String × Company)) (name : String) :
    Option Company :=
  objGet s name

/-- `updateCompany(oldName, { name: newName })`: merges the partial update
into the record stored under `oldName`; the key itself is untouched. -/
def updateCompanyNameField (s : List (String × Company)) (key newName : String) :
    List (String × Company) :=
  match objGet s key with
  | some c => objSet s key { c with name := newName }
  | none => s

/-- The per-investor re-keying in handleCompanyRename: copy the value stored
under the old key to the new key, then delete the old key.  A JS falsy check
guards the copy, so a zero value is not migrated. -/
def rekey (m : List (String × ℤ)) (oldName newName : String) :
    List (String × ℤ) :=
  match objGet m oldName with
  | some v => if v = 0 then m else objDel (objSet m newName v) oldName
  | none => m

/-- `handleCompanyRename` (company.js lines 458-527): guards (existence,
ownership, name length, new-name uniqueness), then `updateCompany(oldName,
{name: newName})` followed by re-keying every investor's invested-amount and
share maps from the old name to the new name. -/
def handleCompanyRename (s : List (String × Company))
    (users : List (String × User)) (sender oldName newName : String) :
    Option (List (String × Company) × List (String × User)) :=
  match objGet s oldName with
  | none => none
  | some company =>
    if company.owner ≠ sender then none
    else if newName.length < 3 ∨ 20 < newName.length then none
    else if (objGet s newName).isSome then none
    else
      let s' := updateCompanyNameField s oldName newName
      let users' := company.investors.foldl
        (fun tbl p =>
          let investor := getUserS tbl p.1
          updateUserS tbl p.1
            { investor with
              investedCompanies := rekey investor.investedCompanies oldName newName
              shares := rekey investor.shares oldName newName })
        users
      some (s', users')

/-! ## Market orders (db.js and src/commands/market.js) -/

structure MarketOrder where
  id : ℤ
  seller : String
  company : String
  quantity : ℤ
  price : ℤ
  createdAt : ℤ
  deriving Repr, DecidableEq

/-- `addMarketOrder(order)`: assigns `id = Date.now() + random(0..999)` and
`createdAt = Date.now()`, then appends the order.  The clock reading and the
random summand are explicit parameters. -/
def addMarketOrder (orders : List MarketOrder) (order : MarketOrder)
    (now rand : ℤ) : List MarketOrder × MarketOrder :=
  let order' := { order with id := now + rand, createdAt := now }
  (orders ++ [order'], order')

/-- `getMarketOrderById`: first order with the given id. -/
def getMarketOrderById (orders : List MarketOrder) (orderId : ℤ) :
    Option MarketOrder :=
  orders.find? (fun o => o.id == orderId)

/-- `removeMarketOrder`: splice out the first order with the given id. -/
def removeMarketOrder (orders : List MarketOrder) (orderId : ℤ) :
    List MarketOrder :=
  orders.eraseP (fun o => o.id == orderId)

/-- The order-book effect of `handleBuyShares` (market.js lines 178-185): a
full buy removes the order; a partial buy removes it and re-adds a copy with
the reduced quantity through `addMarketOrder`. -/
def buySharesOrderEffect (orders : List MarketOrder) (order : MarketOrder)
    (quantity now rand : ℤ) : List MarketOrder :=
  if quantity = order.quantity then removeMarketOrder orders order.id
  else
    (addMarketOrder (removeMarketOrder orders order.id)
      { order with quantity := order.quantity - quantity } now rand).1

/-! ## PvP challenges (db.js and src/unnamed/part_001) -/

inductive CStatus
  | pending
  | accepted
  | declined
  | cancelled
  | expired
  deriving Repr, DecidableEq

structure Challenge where
  id : String
  challenger : String
  opponent : String
  amount : ℤ
  status : CStatus
  createdAt : ℤ
  expiresAt : ℤ
  deriving Repr, DecidableEq

/-- `createChallenge` (db.js lines 233-247). -/
def createChallenge (challengerId opponentId : String) (amount now : ℤ) :
    Challenge where
  id := challengerId ++ "_" ++ opponentId ++ "_" ++ toString now
  challenger := challengerId
  opponent := opponentId
  amount := amount
  status := .pending
  createdAt := now
  expiresAt := now + challengeTimeout * 1000

/-- `updateChallenge(id, { status })` on the challenge table. -/
def updateChallengeStatus (challenges : List Challenge) (id : String)
    (st : CStatus) : List Challenge :=
  challenges.map (fun c => if c.id = id then { c with status := st } else c)

/-- `cleanupExpiredChallenges`: pending challenges past expiry become expired. -/
def cleanupExpiredChallenges (challenges : List Challenge) (now : ℤ) :
    List Challenge :=
  challenges.map (fun c =>
    if c.status = .pending ∧ c.expiresAt < now then { c with status := .expired }
    else c)

/-- `getPendingChallengesForUser` (db.js lines 253-259). -/
def getPendingChallengesForUser (challenges : List Challenge) (userId : String) :
    List Challenge :=
  challenges.filter (fun c => decide (c.status = .pending ∧ c.opponent = userId))

/-- The selection in handleAccept / handleDecline: sort the pending challenges
by descending creation time and take the first. -/
def mostRecentChallenge (l : List Challenge) : Option Challenge :=
  (l.mergeSort (fun a b => decide (b.createdAt ≤ a.createdAt))).head?

/-- `handleChallenge` (part_001 lines 16-146), restricted to the challenger's
record: the rolling hourly rate limit (including the reset write that the
final update overwrites, because the handler keeps using its initial snapshot
of the user), the bet validations against both balances, and the creation of
the pending challenge. -/
def handleChallenge (dbU : User) (challengerId opponentId : String)
    (oppBalance : ℚ) (stake now : ℤ) : Option (User × Challenge) :=
  let u := dbU
  let lastCT := (u.lastChallengeTime).getD 0
  let hourAgo := now - 3600000
  if hourAgo < lastCT ∧ maxChallengesPerHour ≤ u.challengesMade then none
  else
    let db1 :=
      if hourAgo < lastCT then dbU
      else { dbU with challengesMade := 0, lastChallengeTime := some now }
    if stake ≤ 0 then none
    else if u.balance < (stake : ℚ) then none
    else if stake < minBet then none
    else if maxBet < stake then none
    else if oppBalance < (stake : ℚ) then none
    else
      let ch := createChallenge challengerId opponentId stake now
      some ({ db1 with
                challengesMade := u.challengesMade + 1
                lastChallengeTime := some now },
            ch)

/-- Outcome of the resolution part of handleAccept. -/
structure AcceptOutcome where
  status : CStatus
  challenger : User
  opponent : User
  deriving Repr

/-- The resolution core of `handleAccept` (part_001 lines 178-289): re-validate
both balances (cancelling on insufficiency), then transfer the stake from the
loser to the winner according to the coin (heads means the challenger wins),
update both players' counters and last-opponent references, and award XP. -/
def acceptResolve (challenger opponent : User)
    (challengerId opponentId : String) (amount : ℤ) (coinHeads : Bool) :
    AcceptOutcome :=
  if opponent.balance < (amount : ℚ) then ⟨.cancelled, challenger, opponent⟩
  else if challenger.balance < (amount : ℚ) then ⟨.cancelled, challenger, opponent⟩
  else if coinHeads then
    let c1 := { challenger with
      balance := challenger.balance + (amount : ℚ)
      gamesPlayed := challenger.gamesPlayed + 1
      gamesWon := challenger.gamesWon + 1
      lastOpponent := some opponentId }
    let o1 := { opponent with
      balance := opponent.balance - (amount : ℚ)
      gamesPlayed := opponent.gamesPlayed + 1
      lastOpponent := some challengerId }
    ⟨.accepted, addXP c1 (xpPerWin + xpPerBet), addXP o1 (xpPerLoss + xpPerBet)⟩
  else
    let o1 := { opponent with
      balance := opponent.balance + (amount : ℚ)
      gamesPlayed := opponent.gamesPlayed + 1
      gamesWon := opponent.gamesWon + 1
      lastOpponent := some challengerId }
    let c1 := { challenger with
      balance := challenger.balance - (amount : ℚ)
      gamesPlayed := challenger.gamesPlayed + 1
      lastOpponent := some opponentId }
    ⟨.accepted, addXP c1 (xpPerLoss + xpPerBet), addXP o1 (xpPerWin + xpPerBet)⟩

/-- The challenge-table effect of handleAccept / handleDecline: clean up
expired challenges, pick the most recent pending challenge addressed to the
sender, and set its status (the resolution or decline status). -/
def resolveMostRecent (challenges : List Challenge) (sender : String)
    (now : ℤ) (st : CStatus) : Option (Challenge × List Challenge) :=
  let cleaned := cleanupExpiredChallenges challenges now
  let pending := getPendingChallengesForUser cleaned sender
  match mostRecentChallenge pending with
  | none => none
  | some ch => some (ch, updateChallengeStatus cleaned ch.id st)

/-! ## Blackjack deck and game flow (src/utils/games.js and
src/commands/gambling.js) -/

inductive Suit
  | hearts
  | diamonds
  | clubs
  | spades
  deriving Repr, DecidableEq

inductive Rank
  | two
  | three
  | four
  | five
  | six
  | seven
  | eight
  | nine
  | ten
  | jack
  | queen
  | king
  | ace
  deriving Repr, DecidableEq

structure Card where
  suit : Suit
  value : Rank
  deriving Repr, DecidableEq

def defaultCard : Card := ⟨.hearts, .two⟩

def allSuits : List Suit := [.hearts, .diamonds, .clubs, .spades]

def allRanks : List Rank :=
  [.two, .three, .four, .five, .six, .seven, .eight, .nine, .ten,
   .jack, .queen, .king, .ace]

/-- `createDeck`: the 52-card deck, suits outer loop, values inner loop. -/
def createDeck : List Card :=
  (allSuits.map (fun s => allRanks.map (fun v => Card.mk s v))).flatten

/-- Rank value before ace demotion: face cards count 10, an ace counts 11. -/
def rankBaseValue : Rank → ℕ
  | .two => 2
  | .three => 3
  | .four => 4
  | .five => 5
  | .six => 6
  | .seven => 7
  | .eight => 8
  | .nine => 9
  | .ten => 10
  | .jack => 10
  | .queen => 10
  | .king => 10
  | .ace => 11

/-- The ace-demotion loop of calculateHandValue: while the value exceeds 21
and an ace remains, convert one ace from 11 to 1. -/
def demoteAces : ℕ → ℕ → ℕ
  | v, 0 => v
  | v, a + 1 => if 21 < v then demoteAces (v - 10) a else v

/-- `calculateHandValue` (identical in games.js and gambling.js). -/
def calculateHandValue (hand : List Card) : ℕ :=
  demoteAces ((hand.map (fun c => rankBaseValue c.value)).sum)
    ((hand.filter (fun c => c.value == Rank.ace)).length)

/-- `drawCard(deck)`: pop the last card; an empty deck is transparently
replaced by a freshly created shuffled deck (the shuffle result is the
`fresh` parameter) before popping. -/
def drawCard (deck fresh : List Card) : Card × List Card :=
  let d := if deck.isEmpty then fresh else deck
  (d.getLastD defaultCard, d.dropLast)

/-- Result of `dealBlackjackHand` (games.js lines 113-135). -/
structure DealResult where
  playerHand : List Card
  dealerHand : List Card
  deck : List Card
  playerValue : ℕ
  dealerValue : ℕ
  deriving Repr, DecidableEq

/-- `dealBlackjackHand(shuffled)`: two cards each to player and dealer from
the freshly shuffled deck (the shuffle result is the parameter). -/
def dealBlackjackHand (s : List Card) : DealResult :=
  let p1 := drawCard s []
  let p2 := drawCard p1.2 []
  let d1 := drawCard p2.2 []
  let d2 := drawCard d1.2 []
  { playerHand := [p1.1, p2.1]
    dealerHand := [d1.1, d2.1]
    deck := d2.2
    playerValue := calculateHandValue [p1.1, p2.1]
    dealerValue := calculateHandValue [d1.1, d2.1] }

/-- The per-user record `handleBlackjack` stores in `activeBlackjackGames`
(gambling.js lines 403-407): the two hands and the bet.  The deal's deck is
not part of the stored record. -/
structure BJGame where
  playerHand : List Card
  dealerHand : List Card
  betAmount : ℤ
  deriving Repr, DecidableEq

/-- The game-start path of `handleBlackjack`: deal and store the hands and
the bet (the deal's deck is dropped). -/
def startBlackjack (s : List Card) (betAmount : ℤ) : BJGame :=
  let game := dealBlackjackHand s
  { playerHand := game.playerHand, dealerHand := game.dealerHand,
    betAmount := betAmount }

/-- `hitBlackjack(hand, deck)`: with no deck argument a freshly created
shuffled deck is used (its shuffle result is the `fresh` parameter); one card
is drawn from it into the hand. -/
def hitBlackjack (hand : List Card) (deck : Option (List Card))
    (fresh : List Card) : List Card × Card :=
  let d := deck.getD fresh
  let drawn := drawCard d fresh
  (hand ++ [drawn.1], drawn.1)

/-- `handleBlackjackHit` (gambling.js lines 429-469): calls
`hitBlackjack(game.playerHand)` with no deck argument, then ends the game as
a bust when the hand value exceeds 21 (the Bool component). -/
def handleBlackjackHit (g : BJGame) (fresh : List Card) : BJGame × Bool :=
  let hand' := (hitBlackjack g.playerHand none fresh).1
  ({ g with playerHand := hand' }, decide (21 < calculateHandValue hand'))

/-! ## Jackpot draw (src/utils/games.js, drawJackpot) -/

structure JackpotEntry where
  userId : String
  amount : ℤ
  enteredAt : ℤ
  tickets : ℤ
  deriving Repr, DecidableEq

/-- `totalTickets = entries.reduce((sum, e) => sum + e.tickets, 0)`. -/
def totalTickets (entries : List JackpotEntry) : ℤ :=
  (entries.map (fun e => e.tickets)).sum

/-- The cumulative loop of drawJackpot: running ticket counter, return the
first entry whose counter reaches the winning ticket. -/
def drawLoop : List JackpotEntry → ℤ → ℤ → Option JackpotEntry
  | [], _, _ => none
  | e :: rest, winningTicket, acc =>
    if winningTicket ≤ acc + e.tickets then some e
    else drawLoop rest winningTicket (acc + e.tickets)

/-- `drawJackpot(entries)` with the random winning ticket as a parameter:
null on an empty entry list, the cumulative scan otherwise, falling back to
the first entry if the scan somehow fails. -/
def drawJackpot (entries : List JackpotEntry) (winningTicket : ℤ) :
    Option JackpotEntry :=
  match entries with
  | [] => none
  | e0 :: _ => some ((drawLoop entries winningTicket 0).getD e0)

/-- Spec-side pairing of each entry with its cumulative ticket sum. -/
def cumulativeAux : List JackpotEntry → ℤ → List (JackpotEntry × ℤ)
  | [], _ => []
  | e :: rest, acc => (e, acc + e.tickets) :: cumulativeAux rest (acc + e.tickets)

/-- Modelled from the spec wording: the first entry whose cumulative ticket
count is at least the drawn ticket.  Used as the reference for the refinement
statement about `drawJackpot`. -/
def firstCumulativeAtLeast (entries : List JackpotEntry) (r : ℤ) :
    Option JackpotEntry :=
  ((cumulativeAux entries 0).find? (fun p => decide (r ≤ p.2))).map (fun p => p.1)

/-! ## Concrete instances used by the theorems below -/

/-- The two-hearts card used in the blackjack duplication trace. -/
def c2h : Card := ⟨.hearts, .two⟩

/-- The three-of-spades card used in the blackjack duplication trace. -/
def c3s : Card := ⟨.spades, .three⟩

/-- A shuffle of the fresh deck that deals the player the two of hearts and
the three of spades. -/
def sDeal : List Card := ((createDeck.erase c2h).erase c3s) ++ [c3s, c2h]

/-- A shuffle of the fresh deck whose top card (the popped end) is the two of
hearts. -/
def sHit : List Card := createDeck.erase c2h ++ [c2h]

def bjDemo0 : BJGame := startBlackjack sDeal 100

def bjDemo1 : BJGame × Bool := handleBlackjackHit bjDemo0 sHit

def bjDemo2 : BJGame × Bool := handleBlackjackHit bjDemo1.1 sHit

def bjDemo3 : BJGame × Bool := handleBlackjackHit bjDemo2.1 sHit

def bjDemo4 : BJGame × Bool := handleBlackjackHit bjDemo3.1 sHit

/-- A company founded with a 6000-coin investment. -/
def companyAlpha : Company := createCompany "Alpha" "o" "Technology" 6000 0

def demoCompanies : List (String × Company) := [("Alpha", companyAlpha)]

def demoUsersC5 : List (String × User) :=
  [("o", { defaultUser with
             investedCompanies := [("Alpha", 6000)]
             shares := [("Alpha", 100)] })]

/-- A market order listed at time 1000 (id 1000, 3 shares at 10 coins). -/
def demoOrder : MarketOrder :=
  { id := 1000, seller := "s", company := "Alpha", quantity := 3, price := 10,
    createdAt := 1000 }

/-- A challenger whose hourly window is stale: 5 challenges recorded, last
challenge at time 0. -/
def staleChallenger : User :=
  { defaultUser with challengesMade := 5, lastChallengeTime := some 0 }

def entry100 : JackpotEntry := { userId := "u1", amount := 100, enteredAt := 0, tickets := 100 }

def entry900 : JackpotEntry := { userId := "u2", amount := 900, enteredAt := 0, tickets := 900 }

/-- An older pending challenge addressed to "b", created at time 1000. -/
def chOld : Challenge := createChallenge "x" "b" 100 1000

/-- A newer pending challenge addressed to "b", created at time 2000. -/
def chNew : Challenge := createChallenge "y" "b" 200 2000

/-! ## Helper lemmas -/

/-- addXP never touches the wallet balance. -/
theorem addXP_balance (u : User) (a : ℕ) : (addXP u a).balance = u.balance := by
  unfold addXP
  dsimp only
  split <;> rfl

/-- Writing the looked-up value plus a delta adds the delta to the value sum
of a string-keyed map. -/
theorem sumVals_objSet_add (m : List (String × ℤ)) (k : String) (d : ℤ) :
    sumVals (objSet m k ((objGet m k).getD 0 + d)) = sumVals m + d := by
  induction m with
  | nil => simp [objSet, objGet, sumVals]
  | cons p rest ih =>
    by_cases h : p.1 = k
    · simp [objSet, objGet, h, sumVals]
      ring
    · simp [objSet, objGet, h, sumVals] at ih ⊢
      omega

/-! ## C1 -/

/-- C1, amended: every settlement applies the combined balance update
`newWallet = oldWallet - stake + payout`, and the coin-toss, dice,
high-stakes and slots payouts of an integer stake are integers. -/
theorem updateStats_combined_balance_and_integer_payouts
    (u : User) (betAmount winAmount : ℚ) (isWin : Bool)
    (hbet : ∃ n : ℤ, betAmount = (n : ℚ)) :
    (updateStats u betAmount winAmount isWin).balance
      = u.balance - betAmount + winAmount
    ∧ (∀ w : Bool, ∃ n : ℤ, coinTossWinAmount betAmount w = (n : ℚ))
    ∧ (∀ w : Bool, ∃ n : ℤ, diceWinAmount betAmount w = (n : ℚ))
    ∧ (∀ w : Bool, ∃ n : ℤ, highStakesWinAmount betAmount w = (n : ℚ))
    ∧ (∀ (w : Bool) (sym : SlotSymbol), ∃ n : ℤ,
         slotsWinAmount betAmount w sym = (n : ℚ)) := by
  obtain ⟨n, rfl⟩ := hbet
  refine ⟨rfl, ?_, ?_, ?_, ?_⟩
  · intro w
    cases w
    · exact ⟨0, by simp [coinTossWinAmount]⟩
    · exact ⟨n * 2, by simp [coinTossWinAmount]⟩
  · intro w
    cases w
    · exact ⟨0, by simp [diceWinAmount]⟩
    · exact ⟨n * 5, by simp [diceWinAmount]⟩
  · intro w
    cases w
    · exact ⟨0, by simp [highStakesWinAmount]⟩
    · exact ⟨n * 10, by simp [highStakesWinAmount]⟩
  · intro w sym
    cases w
    · exact ⟨0, by simp [slotsWinAmount]⟩
    · cases sym
      · exact ⟨n * 3, by simp [slotsWinAmount, slotMultiplier]⟩
      · exact ⟨n * 5, by simp [slotsWinAmount, slotMultiplier]⟩
      · exact ⟨n * 7, by simp [slotsWinAmount, slotMultiplier]⟩
      · exact ⟨n * 10, by simp [slotsWinAmount, slotMultiplier]⟩
      · exact ⟨n * 15, by simp [slotsWinAmount, slotMultiplier]⟩
      · exact ⟨n * 20, by simp [slotsWinAmount, slotMultiplier]⟩

/-- Witness for C1 at the stake 101, heads win on the coin toss. -/
theorem updateStats_combined_witness :
    (updateStats defaultUser 101 (coinTossWinAmount 101 true) true).balance
      = defaultUser.balance - 101 + coinTossWinAmount 101 true :=
  (updateStats_combined_balance_and_integer_payouts defaultUser 101
    (coinTossWinAmount 101 true) true ⟨101, by norm_num⟩).1

/-- Counterexample for C1 as stated: the wheel's 0.5x bucket applied to the
odd stake 101 pays 50.5, and the settled wallet balance of a fresh user is
949.5, which is not an integer. -/
theorem wheel_half_multiplier_makes_balance_nonintegral :
    (1 / 2 : ℚ) ∈ wheelMultipliers
    ∧ ¬ ∃ m : ℤ,
        (updateStats defaultUser 101 (wheelWinAmount 101 (1 / 2)) false).balance
          = (m : ℚ) := by
  constructor
  · simp [wheelMultipliers]
  · rintro ⟨m, hm⟩
    have hval : (updateStats defaultUser 101 (wheelWinAmount 101 (1 / 2))
        false).balance = 1899 / 2 := by
      show defaultUser.balance - 101 + wheelWinAmount 101 (1 / 2) = 1899 / 2
      norm_num [defaultUser, wheelWinAmount]
    rw [hval] at hm
    have h2 : (1899 : ℚ) = 2 * (m : ℚ) := by linarith
    have h3 : (1899 : ℤ) = 2 * m := by exact_mod_cast h2
    omega

/-! ## C2 -/

/-- C2, amended: after creation the share distribution sums to exactly the
total share count of 100; an invest leaves totalShares at 100 and adds
`floor(amount / newValue * totalShares)` freshly issued shares to the sum, so
the sum exceeds totalShares as soon as a positive number of shares is issued. -/
theorem createCompany_and_invest_share_sum
    (name owner sector : String) (initialInvestment now : ℤ)
    (c : Company) (u : User) (sender : String) (amount : ℤ)
    (h1000 : 1000 ≤ amount) (hbal : (amount : ℚ) ≤ u.balance) :
    (sumVals (createCompany name owner sector initialInvestment now).shareDistribution
        = (createCompany name owner sector initialInvestment now).totalShares
      ∧ (createCompany name owner sector initialInvestment now).totalShares = 100)
    ∧ ∃ c' u', handleCompanyInvest c u sender amount = some (c', u')
        ∧ c'.totalShares = c.totalShares
        ∧ c'.value = c.value + amount
        ∧ sumVals c'.shareDistribution
            = sumVals c.shareDistribution + sharesToGive c amount := by
  refine ⟨⟨by simp [createCompany, sumVals], rfl⟩, ?_⟩
  have hg1 : ¬ amount ≤ 0 := by omega
  have hg2 : ¬ u.balance < (amount : ℚ) := not_lt.mpr hbal
  have hg3 : ¬ amount < 1000 := by omega
  refine ⟨{ c with
      value := c.value + amount
      investors := objSet c.investors sender
        ((objGet c.investors sender).getD 0 + amount)
      shareDistribution := objSet c.shareDistribution sender
        ((objGet c.shareDistribution sender).getD 0 + sharesToGive c amount) },
    { u with
      balance := u.balance - (amount : ℚ)
      investedCompanies := objSet u.investedCompanies c.name
        ((objGet c.investors sender).getD 0 + amount)
      shares := objSet u.shares c.name
        ((objGet u.shares c.name).getD 0 + sharesToGive c amount) },
    ?_, rfl, rfl, ?_⟩
  · simp only [handleCompanyInvest, if_neg hg1, if_neg hg2, if_neg hg3]
  · exact sumVals_objSet_add c.shareDistribution sender (sharesToGive c amount)

/-- Witness for C2: investing 4000 into the 6000-coin company. -/
theorem createCompany_and_invest_share_sum_witness :
    (sumVals companyAlpha.shareDistribution = companyAlpha.totalShares
      ∧ companyAlpha.totalShares = 100)
    ∧ ∃ c' u', handleCompanyInvest companyAlpha
          { defaultUser with balance := 4000 } "b" 4000 = some (c', u')
        ∧ c'.totalShares = companyAlpha.totalShares
        ∧ c'.value = companyAlpha.value + 4000
        ∧ sumVals c'.shareDistribution
            = sumVals companyAlpha.shareDistribution + sharesToGive companyAlpha 4000 := by
  have h := createCompany_and_invest_share_sum "Alpha" "o" "Technology" 6000 0
    companyAlpha { defaultUser with balance := 4000 } "b" 4000
    (by norm_num) (by norm_num)
  exact ⟨⟨h.1.1, h.1.2⟩, h.2⟩

/-- Counterexample for C2 as stated: after the 4000-coin investment into the
6000-coin company, 40 new shares are issued, the distribution sums to 140,
and totalShares is still 100, so the claimed bound fails. -/
theorem invest_share_sum_exceeds_totalShares :
    (handleCompanyInvest companyAlpha { defaultUser with balance := 4000 }
        "b" 4000).map
        (fun p => (sumVals p.1.shareDistribution, p.1.totalShares))
      = some (140, 100)
    ∧ ¬ (140 : ℤ) ≤ 100 := by
  have hob : ("o" : String) ≠ "b" := by decide
  constructor
  · norm_num [handleCompanyInvest, companyAlpha, createCompany, defaultUser,
      objGet, objSet, sumVals, hob]
    norm_num [sharesToGive, createCompany]
  · norm_num

/-! ## C3 -/

/-- C3 (confirmed): creating a challenge moves no funds (the returned
challenger record keeps its wallet balance and the challenge is pending); the
accept resolution never changes the sum of the two wallets, and when both
balances still cover the stake it resolves by moving exactly the stake from
the loser to the winner (otherwise it cancels with both wallets untouched). -/
theorem pvp_challenge_zero_sum
    (dbU : User) (cid oid : String) (oppBalance : ℚ) (stake now : ℤ)
    (challenger opponent : User) (amount : ℤ) (coinHeads : Bool) :
    (∀ u' ch, handleChallenge dbU cid oid oppBalance stake now = some (u', ch) →
      u'.balance = dbU.balance ∧ ch.status = .pending)
    ∧ ((acceptResolve challenger opponent cid oid amount coinHeads).challenger.balance
        + (acceptResolve challenger opponent cid oid amount coinHeads).opponent.balance
        = challenger.balance + opponent.balance)
    ∧ ((amount : ℚ) ≤ opponent.balance → (amount : ℚ) ≤ challenger.balance →
        (acceptResolve challenger opponent cid oid amount coinHeads).status = .accepted
        ∧ (acceptResolve challenger opponent cid oid amount coinHeads).challenger.balance
            = (if coinHeads then challenger.balance + (amount : ℚ)
               else challenger.balance - (amount : ℚ))
        ∧ (acceptResolve challenger opponent cid oid amount coinHeads).opponent.balance
            = (if coinHeads then opponent.balance - (amount : ℚ)
               else opponent.balance + (amount : ℚ)))
    ∧ ((opponent.balance < (amount : ℚ) ∨ challenger.balance < (amount : ℚ)) →
        (acceptResolve challenger opponent cid oid amount coinHeads).status = .cancelled
        ∧ (acceptResolve challenger opponent cid oid amount coinHeads).challenger
            = challenger
        ∧ (acceptResolve challenger opponent cid oid amount coinHeads).opponent
            = opponent) := by
  refine ⟨?_, ?_, ?_, ?_⟩
  · intro u' ch h
    unfold handleChallenge at h
    dsimp only at h
    split_ifs at h <;>
      (injection h with h'; injection h' with h1 h2; subst h1; subst h2;
       exact ⟨rfl, rfl⟩)
  · unfold acceptResolve
    dsimp only
    split_ifs <;> simp [addXP_balance]
  · intro h1 h2
    unfold acceptResolve
    dsimp only
    rw [if_neg (not_lt.mpr h1), if_neg (not_lt.mpr h2)]
    cases coinHeads <;> simp [addXP_balance]
  · intro h
    unfold acceptResolve
    dsimp only
    rcases h with h | h
    · rw [if_pos h]
      exact ⟨rfl, rfl, rfl⟩
    · by_cases h1 : opponent.balance < (amount : ℚ)
      · rw [if_pos h1]
        exact ⟨rfl, rfl, rfl⟩
      · rw [if_neg h1, if_pos h]
        exact ⟨rfl, rfl, rfl⟩

/-- Witness for C3: a 100-coin challenge between two fresh users, heads. -/
theorem pvp_challenge_zero_sum_witness :
    (acceptResolve defaultUser defaultUser "a" "b" 100 true).status = .accepted
    ∧ (acceptResolve defaultUser defaultUser "a" "b" 100 true).challenger.balance
        = (if true then defaultUser.balance + ((100 : ℤ) : ℚ)
           else defaultUser.balance - ((100 : ℤ) : ℚ))
    ∧ (acceptResolve defaultUser defaultUser "a" "b" 100 true).opponent.balance
        = (if true then defaultUser.balance - ((100 : ℤ) : ℚ)
           else defaultUser.balance + ((100 : ℤ) : ℚ)) :=
  (pvp_challenge_zero_sum defaultUser "a" "b" 1000 100 0 defaultUser defaultUser
    100 true).2.2.1 (by norm_num [defaultUser]) (by norm_num [defaultUser])

/-! ## C4 -/

/-- C4 (confirmed): starting from a bank state with `0 ≤ bankBalance ≤
bankCapacity`, every successful deposit, withdrawal and interest claim keeps
`0 ≤ bankBalance ≤ bankCapacity` (the capacity itself is unchanged); a deposit
exceeding the remaining capacity is truncated to the remaining capacity and
debits the wallet by exactly that truncated amount; an interest credit that
would exceed the capacity fills the bank exactly. -/
theorem banking_invariant_preserved (u : User) (amount : ℚ)
    (h0 : 0 ≤ u.bankBalance) (h1 : u.bankBalance ≤ u.bankCapacity) :
    (∀ u', handleDeposit u amount = some u' →
        0 ≤ u'.bankBalance ∧ u'.bankBalance ≤ u'.bankCapacity
          ∧ u'.bankCapacity = u.bankCapacity)
    ∧ (∀ u', handleWithdraw u amount = some u' →
        0 ≤ u'.bankBalance ∧ u'.bankBalance ≤ u'.bankCapacity
          ∧ u'.bankCapacity = u.bankCapacity)
    ∧ (∀ u', handleInterest u = some u' →
        0 ≤ u'.bankBalance ∧ u'.bankBalance ≤ u'.bankCapacity
          ∧ u'.bankCapacity = u.bankCapacity)
    ∧ (0 < amount → amount ≤ u.balance →
        u.bankCapacity - u.bankBalance < amount →
        u.bankCapacity - u.bankBalance ≠ 0 →
        handleDeposit u amount = some
          { u with
            balance := u.balance - (u.bankCapacity - u.bankBalance)
            bankBalance := u.bankCapacity })
    ∧ (0 < Int.floor (u.bankBalance *
          (baseBankInterestRate + (u.prestige : ℚ) * (1 / 1000))) →
        u.bankCapacity < u.bankBalance + (Int.floor (u.bankBalance *
          (baseBankInterestRate + (u.prestige : ℚ) * (1 / 1000))) : ℚ) →
        u.bankBalance < u.bankCapacity →
        handleInterest u = some { u with bankBalance := u.bankCapacity }) := by
  refine ⟨?_, ?_, ?_, ?_, ?_⟩
  · intro u' h
    unfold handleDeposit at h
    dsimp only at h
    by_cases ha : amount ≤ 0
    · rw [if_pos ha] at h
      exact Option.noConfusion h
    rw [if_neg ha] at h
    by_cases hb : u.balance < amount
    · rw [if_pos hb] at h
      exact Option.noConfusion h
    rw [if_neg hb] at h
    by_cases hc : u.bankCapacity - u.bankBalance < amount
    · rw [if_pos hc] at h
      by_cases hd : u.bankCapacity - u.bankBalance = 0
      · rw [if_pos hd] at h
        exact Option.noConfusion h
      · rw [if_neg hd] at h
        injection h with h'
        subst h'
        refine ⟨?_, ?_, rfl⟩ <;> (try dsimp only) <;> linarith
    · rw [if_neg hc] at h
      rw [if_neg (fun h0 => ha (le_of_eq h0))] at h
      injection h with h'
      subst h'
      refine ⟨?_, ?_, rfl⟩ <;> (try dsimp only) <;> linarith
  · intro u' h
    unfold handleWithdraw at h
    by_cases ha : amount ≤ 0
    · rw [if_pos ha] at h
      exact Option.noConfusion h
    rw [if_neg ha] at h
    by_cases hb : u.bankBalance < amount
    · rw [if_pos hb] at h
      exact Option.noConfusion h
    rw [if_neg hb] at h
    injection h with h'
    subst h'
    refine ⟨?_, ?_, rfl⟩ <;> (try dsimp only) <;> linarith
  · intro u' h
    unfold handleInterest at h
    dsimp only at h
    by_cases ha : Int.floor (u.bankBalance *
        (baseBankInterestRate + (u.prestige : ℚ) * (1 / 1000))) ≤ 0
    · rw [if_pos ha] at h
      exact Option.noConfusion h
    rw [if_neg ha] at h
    have ha' : (0 : ℚ) < (Int.floor (u.bankBalance *
        (baseBankInterestRate + (u.prestige : ℚ) * (1 / 1000))) : ℚ) := by
      exact_mod_cast lt_of_not_le ha
    by_cases hb : u.bankCapacity < u.bankBalance + (Int.floor (u.bankBalance *
        (baseBankInterestRate + (u.prestige : ℚ) * (1 / 1000))) : ℚ)
    · rw [if_pos hb] at h
      by_cases hc : u.bankCapacity - u.bankBalance ≤ 0
      · rw [if_pos hc] at h
        exact Option.noConfusion h
      · rw [if_neg hc] at h
        injection h with h'
        subst h'
        refine ⟨?_, ?_, rfl⟩ <;> (try dsimp only) <;> linarith
    · rw [if_neg hb] at h
      injection h with h'
      subst h'
      refine ⟨?_, ?_, rfl⟩ <;> (try dsimp only) <;> linarith
  · intro hpos hbal hover hne
    unfold handleDeposit
    dsimp only
    rw [if_neg (by linarith), if_neg (by linarith), if_pos hover, if_neg hne]
    have he : u.bankBalance + (u.bankCapacity - u.bankBalance) = u.bankCapacity := by
      ring
    rw [he]
  · intro hpos hover hlt
    unfold handleInterest
    dsimp only
    rw [if_neg (by omega), if_pos hover, if_neg (by linarith)]

/-- Witness for C4: depositing 8000 into a bank holding 5000 of a 10000
capacity is truncated to 5000 and fills the bank. -/
theorem banking_invariant_preserved_witness :
    handleDeposit { defaultUser with balance := 8000, bankBalance := 5000 } 8000
      = some { { defaultUser with balance := 8000, bankBalance := 5000 } with
          balance := ({ defaultUser with balance := 8000, bankBalance := 5000 }).balance
            - (({ defaultUser with balance := 8000, bankBalance := 5000 }).bankCapacity
              - ({ defaultUser with balance := 8000, bankBalance := 5000 }).bankBalance)
          bankBalance :=
            ({ defaultUser with balance := 8000, bankBalance := 5000 }).bankCapacity } :=
  (banking_invariant_preserved
      { defaultUser with balance := 8000, bankBalance := 5000 } 8000
      (by norm_num [defaultUser]) (by norm_num [defaultUser])).2.2.2.1
    (by norm_num) (by norm_num [defaultUser]) (by norm_num [defaultUser])
    (by norm_num [defaultUser])

/-! ## C5 -/

/-- C5 evaluation: renaming the company "Alpha" (owner "o") to "Beta"
succeeds, but the company record stays under the primary key "Alpha" (only
its name field changes) and the lookup under "Beta" fails, while the owner's
invested-amount and share maps are re-keyed to "Beta" and so reference a key
with no company record. -/
theorem rename_keeps_old_primary_key :
    ∃ p, handleCompanyRename demoCompanies demoUsersC5 "o" "Alpha" "Beta"
        = some p
      ∧ getCompanyS p.1 "Beta" = none
      ∧ (getCompanyS p.1 "Alpha").map Company.name = some "Beta"
      ∧ objGet (getUserS p.2 "o").shares "Beta" = some 100
      ∧ objGet (getUserS p.2 "o").shares "Alpha" = none
      ∧ objGet (getUserS p.2 "o").investedCompanies "Beta" = some 6000
      ∧ objGet (getUserS p.2 "o").investedCompanies "Alpha" = none := by
  refine ⟨_, rfl, ?_, ?_, ?_, ?_, ?_, ?_⟩ <;> decide

/-! ## C6 -/

/-- If the order ids in the book are distinct, removing an id leaves no order
with that id behind. -/
theorem removeMarketOrder_no_id (orders : List MarketOrder) (i : ℤ)
    (h : (orders.map MarketOrder.id).Nodup) :
    ∀ x ∈ removeMarketOrder orders i, x.id ≠ i := by
  induction orders with
  | nil =>
    intro x hx
    simp [removeMarketOrder] at hx
  | cons o rest ih =>
    intro x hx hxi
    rw [List.map_cons, List.nodup_cons] at h
    by_cases ho : o.id = i
    · rw [show removeMarketOrder (o :: rest) i = rest from by
        simp [removeMarketOrder, List.eraseP_cons, ho]] at hx
      have hm : x.id ∈ rest.map MarketOrder.id := List.mem_map_of_mem _ hx
      rw [hxi, ← ho] at hm
      exact h.1 hm
    · rw [show removeMarketOrder (o :: rest) i = o :: removeMarketOrder rest i from by
        simp [removeMarketOrder, List.eraseP_cons, ho]] at hx
      rcases List.mem_cons.mp hx with h1 | h1
      · exact ho (h1 ▸ hxi)
      · exact ih h.2 x h1 hxi

/-- C6, amended: a buy of less than the remaining quantity removes the order
and re-inserts a copy whose seller, company and unit price are unchanged and
whose quantity is reduced by the bought amount, but `addMarketOrder` assigns
the copy a fresh id (clock reading plus random summand) and a fresh creation
timestamp, so when the fresh id differs from the old one the original order
id no longer resolves; a buy of the full remaining quantity removes the
order. -/
theorem partial_fill_reinserts_with_fresh_id
    (orders : List MarketOrder) (o : MarketOrder) (qty now rand : ℤ)
    (hq : qty ≠ o.quantity) (hnodup : (orders.map MarketOrder.id).Nodup)
    (hfresh : now + rand ≠ o.id) :
    (∃ o' ∈ buySharesOrderEffect orders o qty now rand,
        o'.seller = o.seller ∧ o'.company = o.company ∧ o'.price = o.price
          ∧ o'.quantity = o.quantity - qty ∧ o'.id = now + rand
          ∧ o'.createdAt = now)
    ∧ getMarketOrderById (buySharesOrderEffect orders o qty now rand) o.id = none
    ∧ buySharesOrderEffect orders o o.quantity now rand
        = removeMarketOrder orders o.id := by
  have hb : buySharesOrderEffect orders o qty now rand
      = removeMarketOrder orders o.id
        ++ [{ o with
                id := now + rand
                quantity := o.quantity - qty
                createdAt := now }] := by
    simp [buySharesOrderEffect, hq, addMarketOrder]
  refine ⟨?_, ?_, by simp [buySharesOrderEffect]⟩
  · refine ⟨{ o with
        id := now + rand
        quantity := o.quantity - qty
        createdAt := now }, ?_, rfl, rfl, rfl, rfl, rfl, rfl⟩
    rw [hb]
    simp
  · rw [hb]
    unfold getMarketOrderById
    rw [List.find?_eq_none]
    intro x hx
    simp only [List.mem_append, List.mem_singleton] at hx
    rcases hx with hx | hx
    · simpa using removeMarketOrder_no_id orders o.id hnodup x hx
    · subst hx
      simpa using hfresh

/-- Witness for C6: buying 1 of the 3 listed shares of the demo order at time
2000 with random summand 0. -/
theorem partial_fill_reinserts_with_fresh_id_witness :
    (∃ o' ∈ buySharesOrderEffect [demoOrder] demoOrder 1 2000 0,
        o'.seller = demoOrder.seller ∧ o'.company = demoOrder.company
          ∧ o'.price = demoOrder.price
          ∧ o'.quantity = demoOrder.quantity - 1 ∧ o'.id = 2000 + 0
          ∧ o'.createdAt = 2000)
    ∧ getMarketOrderById (buySharesOrderEffect [demoOrder] demoOrder 1 2000 0)
        demoOrder.id = none
    ∧ buySharesOrderEffect [demoOrder] demoOrder demoOrder.quantity 2000 0
        = removeMarketOrder [demoOrder] demoOrder.id :=
  partial_fill_reinserts_with_fresh_id [demoOrder] demoOrder 1 2000 0
    (by decide) (by decide) (by decide)

/-- Counterexample for C6 as stated: after buying 1 of the 3 shares of order
1000 at time 2000, the book holds a single order with the fresh id 2000 and
creation time 2000, and the original order id 1000 no longer resolves. -/
theorem partial_fill_original_id_lost :
    buySharesOrderEffect [demoOrder] demoOrder 1 2000 0
      = [{ id := 2000, seller := "s", company := "Alpha", quantity := 2,
           price := 10, createdAt := 2000 }]
    ∧ getMarketOrderById (buySharesOrderEffect [demoOrder] demoOrder 1 2000 0)
        1000 = none := by
  constructor <;> decide

/-! ## C7 -/

/-- Moving a member of a list to the end is a permutation of the list. -/
theorem perm_move_to_end {α : Type} [DecidableEq α] {l : List α} {a : α}
    (h : a ∈ l) : (l.erase a ++ [a]).Perm l :=
  (List.perm_append_singleton a (l.erase a)).trans (List.perm_cons_erase h).symm

/-- The deal shuffle of the duplication trace is a permutation of the fresh
deck. -/
theorem sDeal_perm : sDeal.Perm createDeck := by
  have h1 : c2h ∈ createDeck := by decide
  have h2 : c3s ∈ createDeck.erase c2h := by decide
  have e : sDeal = ((createDeck.erase c2h).erase c3s ++ [c3s]) ++ [c2h] := by
    simp [sDeal]
  rw [e]
  exact ((perm_move_to_end h2).append_right [c2h]).trans (perm_move_to_end h1)

/-- The hit shuffle of the duplication trace is a permutation of the fresh
deck. -/
theorem sHit_perm : sHit.Perm createDeck := by
  have h1 : c2h ∈ createDeck := by decide
  exact perm_move_to_end h1

/-- C7, amended: the stored game record holds no deck, and every hit draws
its card from the freshly created shuffled deck passed to that hit — the
drawn card is the popped end of the fresh shuffle, a member of the full
52-card deck, regardless of what was drawn before in the game. -/
theorem hit_draws_from_fresh_deck (g : BJGame) (s : List Card)
    (hs : s.Perm createDeck) :
    (handleBlackjackHit g s).1.playerHand
      = g.playerHand ++ [s.getLastD defaultCard]
    ∧ (handleBlackjackHit g s).1.dealerHand = g.dealerHand
    ∧ (handleBlackjackHit g s).1.betAmount = g.betAmount
    ∧ s.getLastD defaultCard ∈ createDeck := by
  have hne : s ≠ [] := by
    intro h0
    have := hs.length_eq
    rw [h0] at this
    simp [createDeck, allSuits, allRanks] at this
  have hmem : s.getLastD defaultCard ∈ s := by
    rw [List.getLastD_eq_getLast?, List.getLast?_eq_getLast s hne]
    simp [List.getLast_mem]
  refine ⟨?_, rfl, rfl, hs.mem_iff.mp hmem⟩
  unfold handleBlackjackHit hitBlackjack drawCard
  dsimp only [Option.getD]
  rw [if_neg (by simpa using hne)]

/-- Witness for C7: hitting the dealt demo game with the demo shuffle. -/
theorem hit_draws_from_fresh_deck_witness :
    (handleBlackjackHit bjDemo0 sHit).1.playerHand
      = bjDemo0.playerHand ++ [sHit.getLastD defaultCard]
    ∧ (handleBlackjackHit bjDemo0 sHit).1.dealerHand = bjDemo0.dealerHand
    ∧ (handleBlackjackHit bjDemo0 sHit).1.betAmount = bjDemo0.betAmount
    ∧ sHit.getLastD defaultCard ∈ createDeck :=
  hit_draws_from_fresh_deck bjDemo0 sHit sHit_perm

/-- Counterexample for C7 as stated: a legal game trace (dealt hand of value
5, four non-busting hits, each from a fresh shuffled 52-card deck) whose
hands contain the two of hearts five times. -/
theorem blackjack_game_with_five_copies :
    sDeal.Perm createDeck ∧ sHit.Perm createDeck
    ∧ bjDemo0.playerHand = [c2h, c3s]
    ∧ calculateHandValue bjDemo0.playerHand = 5
    ∧ bjDemo1.2 = false ∧ bjDemo2.2 = false ∧ bjDemo3.2 = false
    ∧ bjDemo4.2 = false
    ∧ (bjDemo4.1.playerHand ++ bjDemo4.1.dealerHand).count c2h = 5
    ∧ 4 < (bjDemo4.1.playerHand ++ bjDemo4.1.dealerHand).count c2h := by
  refine ⟨sDeal_perm, sHit_perm, ?_, ?_, ?_, ?_, ?_, ?_, ?_, ?_⟩ <;> decide

/-! ## C8 -/

/-- C8 evaluation: a challenger with 5 recorded challenges whose window
timestamp (time 0) is over an hour stale creates a challenge at time 7200000;
the handler passes the rate limit and writes the reset, but the final update
stores the stale snapshot count plus one, so the stored count is 6, not 1. -/
theorem challenge_hourly_reset_clobbered :
    ∃ p, handleChallenge staleChallenger "a" "b" 1000 100 7200000 = some p
      ∧ p.1.challengesMade = 6
      ∧ p.1.lastChallengeTime = some 7200000
      ∧ p.2.status = CStatus.pending
      ∧ staleChallenger.challengesMade = 5
      ∧ maxChallengesPerHour = 5 := by
  refine ⟨_, rfl, ?_, ?_, ?_, ?_, ?_⟩ <;> rfl

/-! ## C9 -/

/-- The cumulative scan of drawJackpot agrees with the spec-side first entry
whose cumulative sum reaches the draw, for any accumulator and a draw bounded
by the accumulator plus the remaining total. -/
theorem drawLoop_eq_firstCumulative (entries : List JackpotEntry) (r : ℤ) :
    ∀ acc : ℤ, entries ≠ [] → r ≤ acc + totalTickets entries →
      ∃ e, drawLoop entries r acc = some e
        ∧ ((cumulativeAux entries acc).find?
            (fun p => decide (r ≤ p.2))).map (fun p => p.1) = some e := by
  induction entries with
  | nil => intro acc h; exact absurd rfl h
  | cons e rest ih =>
    intro acc _ hr
    by_cases hle : r ≤ acc + e.tickets
    · refine ⟨e, ?_, ?_⟩
      · simp [drawLoop, hle]
      · simp [cumulativeAux, List.find?_cons, hle]
    · have hrest : rest ≠ [] := by
        intro h0
        subst h0
        simp [totalTickets] at hr
        exact hle hr
      have hr' : r ≤ (acc + e.tickets) + totalTickets rest := by
        simp only [totalTickets, List.map_cons, List.sum_cons] at hr
        simp only [totalTickets]
        linarith
      obtain ⟨w, hw1, hw2⟩ := ih (acc + e.tickets) hrest hr'
      refine ⟨w, ?_, ?_⟩
      · simp [drawLoop, hle, hw1]
      · simp [cumulativeAux, List.find?_cons, hle, hw2]

/-- C9 (confirmed): the jackpot draw returns none on an empty entry list; for
a nonempty list and a draw in `[1, totalTickets]` it returns exactly the
first entry whose cumulative ticket count reaches the draw; with entries of
100 and 900 tickets a forced draw of 950 selects the second entry. -/
theorem drawJackpot_first_cumulative :
    (∀ r : ℤ, drawJackpot [] r = none)
    ∧ (∀ (entries : List JackpotEntry) (r : ℤ), entries ≠ [] →
        1 ≤ r → r ≤ totalTickets entries →
        drawJackpot entries r = firstCumulativeAtLeast entries r)
    ∧ drawJackpot [entry100, entry900] 950 = some entry900
    ∧ firstCumulativeAtLeast [entry100, entry900] 950 = some entry900 := by
  refine ⟨fun r => rfl, ?_, by decide, by decide⟩
  intro entries r hne _ hr
  obtain ⟨w, hw1, hw2⟩ :=
    drawLoop_eq_firstCumulative entries r 0 hne (by simpa using hr)
  match entries, hne with
  | e0 :: rest, _ =>
    show some ((drawLoop (e0 :: rest) r 0).getD e0) = _
    rw [hw1]
    show some w = firstCumulativeAtLeast (e0 :: rest) r
    unfold firstCumulativeAtLeast
    exact hw2.symm

/-- Witness for C9 at the two-entry pool and the forced draw 950. -/
theorem drawJackpot_first_cumulative_witness :
    drawJackpot [entry100, entry900] 950
      = firstCumulativeAtLeast [entry100, entry900] 950 :=
  drawJackpot_first_cumulative.2.1 [entry100, entry900] 950
    (by decide) (by decide) (by decide)

/-! ## C10 -/

/-- C10 (confirmed): when the sender has pending challenges, accept (or
decline) resolves the pending challenge addressed to the sender with the
greatest creation timestamp: the selected challenge is pending, addressed to
the sender, and at least as recent as every other pending challenge for the
sender; only the entry with its id changes status, every other challenge in
the table is kept unchanged. -/
theorem accept_resolves_most_recent_pending
    (challenges : List Challenge) (sender : String) (now : ℤ) (st : CStatus)
    (hne : getPendingChallengesForUser (cleanupExpiredChallenges challenges now)
        sender ≠ []) :
    ∃ ch chs',
      resolveMostRecent challenges sender now st = some (ch, chs')
      ∧ ch ∈ getPendingChallengesForUser
          (cleanupExpiredChallenges challenges now) sender
      ∧ ch.status = .pending ∧ ch.opponent = sender
      ∧ (∀ c ∈ getPendingChallengesForUser
            (cleanupExpiredChallenges challenges now) sender,
          c.createdAt ≤ ch.createdAt)
      ∧ chs' = updateChallengeStatus (cleanupExpiredChallenges challenges now)
          ch.id st
      ∧ (∀ c ∈ cleanupExpiredChallenges challenges now,
          c.id ≠ ch.id → c ∈ chs')
      ∧ { ch with status := st } ∈ chs' := by
  classical
  set cleaned := cleanupExpiredChallenges challenges now with hcleaned
  set pending := getPendingChallengesForUser cleaned sender with hpending
  have hperm : (pending.mergeSort
      (fun a b => decide (b.createdAt ≤ a.createdAt))).Perm pending :=
    List.mergeSort_perm pending _
  have hsorted : List.Sorted (fun a b : Challenge => b.createdAt ≤ a.createdAt)
      (pending.mergeSort (fun a b => decide (b.createdAt ≤ a.createdAt))) := by
    have := @List.sorted_mergeSort Challenge
      (fun a b => decide (b.createdAt ≤ a.createdAt))
      (by intro a b c hab hbc; simp only [decide_eq_true_eq] at *; omega)
      (by intro a b; simp only [Bool.or_eq_true, decide_eq_true_eq]; omega)
      pending
    simpa using this
  have hsne : pending.mergeSort
      (fun a b => decide (b.createdAt ≤ a.createdAt)) ≠ [] := by
    intro h0
    exact hne (List.Perm.eq_nil (h0 ▸ hperm.symm))
  match hsort : pending.mergeSort
      (fun a b => decide (b.createdAt ≤ a.createdAt)), hsne with
  | ch :: tail, _ =>
    have hhead : mostRecentChallenge pending = some ch := by
      unfold mostRecentChallenge
      rw [hsort]
      rfl
    have hchmem : ch ∈ pending := by
      have : ch ∈ ch :: tail := List.mem_cons_self ch tail
      exact hperm.mem_iff.mp (hsort ▸ this)
    have hfil := List.mem_filter.mp (hpending ▸ hchmem)
    have hch2 : ch.status = .pending ∧ ch.opponent = sender := by
      simpa using hfil.2
    refine ⟨ch, updateChallengeStatus cleaned ch.id st, ?_, hchmem, hch2.1,
      hch2.2, ?_, rfl, ?_, ?_⟩
    · unfold resolveMostRecent
      dsimp only
      rw [← hpending, hhead]
    · intro c hc
      have hcs : c ∈ ch :: tail := hsort ▸ hperm.mem_iff.mpr hc
      rcases List.mem_cons.mp hcs with h1 | h1
      · exact le_of_eq (congrArg Challenge.createdAt h1)
      · have := (List.sorted_cons.mp (hsort ▸ hsorted)).1
        exact this c h1
    · intro c hc hcid
      refine List.mem_map.mpr ⟨c, hc, ?_⟩
      simp [hcid]
    · refine List.mem_map.mpr ⟨ch, hfil.1, ?_⟩
      simp

/-- Witness for C10: two pending challenges for "b" created at times 1000 and
2000, accepted at time 2500. -/
theorem accept_resolves_most_recent_pending_witness :
    ∃ ch chs',
      resolveMostRecent [chOld, chNew] "b" 2500 .accepted = some (ch, chs')
      ∧ ch ∈ getPendingChallengesForUser
          (cleanupExpiredChallenges [chOld, chNew] 2500) "b"
      ∧ ch.status = .pending ∧ ch.opponent = "b"
      ∧ (∀ c ∈ getPendingChallengesForUser
            (cleanupExpiredChallenges [chOld, chNew] 2500) "b",
          c.createdAt ≤ ch.createdAt)
      ∧ chs' = updateChallengeStatus (cleanupExpiredChallenges [chOld, chNew] 2500)
          ch.id .accepted
      ∧ (∀ c ∈ cleanupExpiredChallenges [chOld, chNew] 2500,
          c.id ≠ ch.id → c ∈ chs')
      ∧ { ch with status := .accepted } ∈ chs' :=
  accept_resolves_most_recent_pending [chOld, chNew] "b" 2500 .accepted
    (by decide)

end Vryzen
